import Mathlib

/-!
Verification of `scripts/post_to_wordpress.py`.

The script is embedded shallowly over `List Char` (Python strings).  Pure text
transformations (`parse_markdown`, the taxonomy-name normalisation and the
identifier resolution of `post_to_wordpress`) are translated directly; the
HTTP interaction of `post_to_wordpress` is modelled by an environment of
prepared responses together with the trace of requests the run performs.
-/

namespace Pontalk

/-- Python `str.split(sep)` for a one-character separator: splits at every
occurrence of the separator, keeping empty pieces (`"".split(",") == [""]`). -/
def pySplitChar (sep : Char) : List Char → List (List Char)
  | [] => [[]]
  | c :: rest =>
    let r := pySplitChar sep rest
    if c = sep then [] :: r
    else
      match r with
      | [] => [[c]]
      | p :: ps => (c :: p) :: ps

/-- Python's notion of ASCII whitespace, as used by `str.strip()`. -/
def isPySpace (c : Char) : Bool :=
  c == ' ' || c == '\t' || c == '\n' || c == '\r' || c == '\x0b' || c == '\x0c'

/-- Python `str.strip()`: remove leading and trailing whitespace. -/
def pyStrip (s : List Char) : List Char :=
  ((s.dropWhile isPySpace).reverse.dropWhile isPySpace).reverse

/-- Python `str.lower()` (ASCII fragment, which is all the script relies on). -/
def pyLower (s : List Char) : List Char :=
  s.map Char.toLower

/-- Python `str.replace(pat, rep)` specialised to the one-character pattern the
script uses (`item.replace('&', '&amp;')`): every occurrence of the character
is replaced by `rep`. -/
def pyReplaceChar (pat : Char) (rep : List Char) : List Char → List Char
  | [] => []
  | c :: rest => (if c = pat then rep else [c]) ++ pyReplaceChar pat rep rest

/-- Decidable substring test, the Python `pat in line` operator. -/
def containsSub (pat : List Char) : List Char → Bool
  | [] => pat.isEmpty
  | c :: rest => pat.isPrefixOf (c :: rest) || containsSub pat rest

/-- `re.search(lit + r'(.+)', text)` for a literal `lit` containing no newline
and no regex metacharacters: scan left to right for an occurrence of `lit`
followed by at least one non-newline character; the captured group is the
maximal run of non-newline characters after the literal. -/
def reSearchAfterLit (lit : List Char) : List Char → Option (List Char)
  | [] => none
  | c :: rest =>
    if lit.isPrefixOf (c :: rest) then
      let g := ((c :: rest).drop lit.length).takeWhile (fun d => d != '\n')
      if g.isEmpty then reSearchAfterLit lit rest else some g
    else reSearchAfterLit lit rest

/-- The literal `"Categories: "` of the script. -/
def catLit : List Char := "Categories: ".data

/-- The literal `"Tags: "` of the script. -/
def tagLit : List Char := "Tags: ".data

/-- The literal `"## Excerpt"` of the script. -/
def excerptLit : List Char := "## Excerpt".data

/-- Helper for `re.search(r'^# (.+)', text, re.MULTILINE)`: with the MULTILINE
flag, `^` anchors at line starts, so the leftmost match is on the first line
that begins with `"# "` and has at least one further character; the captured
group is the rest of that line. -/
def findHeadingLine : List (List Char) → Option (List Char)
  | [] => none
  | l :: rest =>
    if l.take 2 = ['#', ' '] ∧ l.drop 2 ≠ [] then some (l.drop 2)
    else findHeadingLine rest

/-- `re.search(r'^# (.+)', text, re.MULTILINE)`, line 41 of the script. -/
def reSearchTitleLine (text : List Char) : Option (List Char) :=
  findHeadingLine (pySplitChar '\n' text)

/-- `title = title_match.group(1) if title_match else "No title"`, line 45. -/
def parseTitle (text : List Char) : List Char :=
  match reSearchTitleLine text with
  | some t => t
  | none => "No title".data

/-- `[c.strip().lower() for c in m.group(1).split(",")] if m else []`,
lines 46-47 of the script, for the metadata literal `lit`. -/
def metaNames (lit : List Char) (text : List Char) : List (List Char) :=
  match reSearchAfterLit lit text with
  | some s => (pySplitChar ',' s).map (fun c => pyLower (pyStrip c))
  | none => []

/-- The parsed `categories` list, lines 42 and 46. -/
def parseCategories (text : List Char) : List (List Char) :=
  metaNames catLit text

/-- The parsed `tags` list, lines 43 and 47. -/
def parseTags (text : List Char) : List (List Char) :=
  metaNames tagLit text

/-- `re.sub(r'^# .+\n', '', text, count=1)`, line 50.  Without `re.MULTILINE`
the anchor `^` matches only at the start of the string, so the substitution
removes the first line exactly when the document starts with `"# "`, followed
by at least one non-newline character and then a newline. -/
def removeLeadingTitle (text : List Char) : List Char :=
  match text with
  | c1 :: c2 :: after =>
    if c1 = '#' ∧ c2 = ' ' then
      let line := after.takeWhile (fun d => d != '\n')
      if line.length > 0 ∧ (after.drop line.length).take 1 = ['\n'] then
        after.drop (line.length + 1)
      else text
    else text
  | _ => text

/-- `content_md = re.sub(r'^# .+\n', '', text, count=1).strip()`, line 50. -/
def contentMd (text : List Char) : List Char :=
  pyStrip (removeLeadingTitle text)

/-- The loop of lines 52-65: scan the lines of `content_md`, dropping lines
that start with `"Categories: "` or `"Tags: "`, switching to excerpt
accumulation at any line containing `"## Excerpt"` (that line itself dropped),
appending `line + "\n"` to the body before the switch and to the excerpt
after it.  Returns `(content_, excerpt)`. -/
def scanBody : List (List Char) → Bool → List Char × List Char
  | [], _ => ([], [])
  | l :: rest, flag =>
    if catLit.isPrefixOf l then scanBody rest flag
    else if tagLit.isPrefixOf l then scanBody rest flag
    else if containsSub excerptLit l then scanBody rest true
    else if flag = false then
      ((l ++ ['\n']) ++ (scanBody rest flag).1, (scanBody rest flag).2)
    else
      ((scanBody rest flag).1, (l ++ ['\n']) ++ (scanBody rest flag).2)

/-- The `(content_, excerpt)` pair produced from a document text by
lines 50-65 of the script. -/
def bodyExcerptOf (text : List Char) : List Char × List Char :=
  scanBody (pySplitChar '\n' (contentMd text)) false

/-- Append a newline to each line and concatenate. -/
def joinNl (ls : List (List Char)) : List Char :=
  (ls.map (fun l => l ++ ['\n'])).flatten

/-- Join the lines of a paragraph with single newlines. -/
def joinParagraph (ls : List (List Char)) : List Char :=
  (List.intersperse ['\n'] ls).flatten

/-- The fenced-code delimiter. -/
def fenceLit : List Char := "```".data

/-- Modelled from the spec: the Markup Renderer is the external `markdown`
library (with the `fenced_code` and `codehilite` extensions, lines 67-76),
which is not part of this repository.  Per the spec it converts the body
markup to an HTML fragment, wrapping paragraphs in `<p>` elements and
rendering a fenced code block as a code element whose literal text is
preserved exactly.  Blank lines separate blocks; the fuel argument bounds the
recursion by the number of remaining lines. -/
def renderBlocks : Nat → List (List Char) → List (List Char)
  | 0, _ => []
  | _, [] => []
  | fuel + 1, l :: rest =>
    if l.isEmpty then renderBlocks fuel rest
    else if fenceLit.isPrefixOf l then
      let body := rest.takeWhile (fun x => !(fenceLit.isPrefixOf x))
      let rest2 := (rest.dropWhile (fun x => !(fenceLit.isPrefixOf x))).drop 1
      ("<pre><code>".data ++ joinNl body ++ "</code></pre>".data)
        :: renderBlocks fuel rest2
    else
      let para := (l :: rest).takeWhile (fun x => !x.isEmpty && !(fenceLit.isPrefixOf x))
      let rest2 := (l :: rest).dropWhile (fun x => !x.isEmpty && !(fenceLit.isPrefixOf x))
      ("<p>".data ++ joinParagraph para ++ "</p>".data) :: renderBlocks fuel rest2

/-- Modelled from the spec: `markdown.markdown(content_, extensions=...)` of
lines 72-76 — the rendered HTML fragment, blocks joined by newlines. -/
def renderMarkdown (s : List Char) : List Char :=
  let ls := pySplitChar '\n' s
  (List.intersperse ['\n'] (renderBlocks (ls.length + 1) ls)).flatten

/-- The tuple returned by `parse_markdown` (line 78):
`(title, categories, tags, excerpt, content_html)`. -/
structure ParsedDoc where
  title : List Char
  categories : List (List Char)
  tags : List (List Char)
  excerpt : List Char
  contentHtml : List Char
deriving Repr, DecidableEq

/-- `parse_markdown` (lines 36-78) on the text of the file. -/
def parseMarkdown (text : List Char) : ParsedDoc :=
  { title := parseTitle text
    categories := parseCategories text
    tags := parseTags text
    excerpt := (bodyExcerptOf text).2
    contentHtml := renderMarkdown (bodyExcerptOf text).1 }

/-- `item.replace('&', '&amp;')` of lines 91 and 95. -/
def escAmp (s : List Char) : List Char :=
  pyReplaceChar '&' "&amp;".data s

/-- A taxonomy map, the dictionary built by `fetch_terms` (line 34): pairs of
lowercased remote term name and numeric identifier. -/
abbrev TaxonomyMap := List (List Char × Nat)

/-- Lines 89-99: escape ampersands in each name, then
`[m.get(c) for c in modified if c in m]` — keep, in order, the identifiers
of the escaped names present in the map. -/
def resolveIds (m : TaxonomyMap) (names : List (List Char)) : List Nat :=
  let modified := names.map escAmp
  (modified.filter (fun c => (List.lookup c m).isSome)).map
    (fun c => (List.lookup c m).getD 0)

/-- The JSON body assembled at lines 101-108. -/
structure PostPayload where
  title : List Char
  status : List Char
  content : List Char
  categories : List Nat
  excerpt : List Char
  tags : List Nat
deriving Repr, DecidableEq

/-- Lines 88-108 of `post_to_wordpress`: parse the document and assemble the
outgoing payload from the fetched taxonomy maps. -/
def buildPayload (text : List Char) (categoryMap tagMap : TaxonomyMap) :
    PostPayload :=
  let d := parseMarkdown text
  { title := d.title
    status := "publish".data
    content := d.contentHtml
    categories := resolveIds categoryMap d.categories
    excerpt := d.excerpt
    tags := resolveIds tagMap d.tags }

/-- The HTTP requests `post_to_wordpress` can issue, in the script's order:
the token request of `get_jwt_token`, the two `fetch_terms` calls, and the
post-creation request. -/
inductive Req where
  | authToken
  | fetchCategories
  | fetchTags
  | createPost
deriving Repr, DecidableEq

/-- The remote side of a run: the prepared response to each request, either
an HTTP error status (on which `raise_for_status` aborts) or a result. -/
structure HttpEnv where
  authResp : Except Nat (List Char)
  categoriesResp : Except Nat TaxonomyMap
  tagsResp : Except Nat TaxonomyMap
  postResp : Except Nat (List Char)

/-- `post_to_wordpress` (lines 80-113) as a trace semantics: requests are
issued in the script's order — token, categories, tags, post creation — and
the first error response aborts the run (`raise_for_status`).  Returns the
list of requests attempted together with the outcome (the published link on
success). -/
def postToWordpress (env : HttpEnv) (text : List Char) :
    List Req × Except Nat (List Char) :=
  match env.authResp with
  | .error e => ([.authToken], .error e)
  | .ok _token =>
    match env.categoriesResp with
    | .error e => ([.authToken, .fetchCategories], .error e)
    | .ok categoryMap =>
      match env.tagsResp with
      | .error e => ([.authToken, .fetchCategories, .fetchTags], .error e)
      | .ok tagMap =>
        let _payload := buildPayload text categoryMap tagMap
        match env.postResp with
        | .error e =>
          ([.authToken, .fetchCategories, .fetchTags, .createPost], .error e)
        | .ok link =>
          ([.authToken, .fetchCategories, .fetchTags, .createPost], .ok link)

/-! ### Claim theorems -/

/-- C1: for the document `"# Hello\nCategories: news\nTags: go, rust\nBody
text\n## Excerpt\nShort.\n"` and remote maps `{news ↦ 1}` (categories) and
`{go ↦ 2}` (tags), the assembled payload has title `"Hello"`, categories
`[1]`, tags `[2]`, excerpt `"Short.\n"` and content `"<p>Body text</p>"`,
the unmatched tag `"rust"` being omitted. -/
theorem claim1_scenario_payload :
    buildPayload
      "# Hello\nCategories: news\nTags: go, rust\nBody text\n## Excerpt\nShort.\n".data
      [("news".data, 1)] [("go".data, 2)] =
    { title := "Hello".data
      status := "publish".data
      content := "<p>Body text</p>".data
      categories := [1]
      excerpt := "Short.\n".data
      tags := [2] } := by
  decide

/-- C2 (counterexample): the document `"x\n# Hello\nbody\n"` contains the
heading line `"# Hello"` (the parsed title is `"Hello"`), yet because the
substitution of line 50 anchors `^` at the start of the string only, the
heading line is not removed and appears among the body's lines, while the
claim says the body and excerpt never contain the title heading line. -/
theorem claim2_counterexample :
    parseTitle "x\n# Hello\nbody\n".data = "Hello".data ∧
    ('#' :: ' ' :: parseTitle "x\n# Hello\nbody\n".data) ∈
      pySplitChar '\n' (bodyExcerptOf "x\n# Hello\nbody\n".data).1 := by
  constructor
  · decide
  · decide

/-- Every character of `t` satisfies `d != '\n'`, so the `takeWhile` of the
scan for the end of the first line stops exactly at the appended newline. -/
lemma takeWhile_ne_newline_append (t rest : List Char) (h : '\n' ∉ t) :
    (t ++ '\n' :: rest).takeWhile (fun d => d != '\n') = t := by
  induction t with
  | nil => simp
  | cons a t ih =>
    have ha : (a != '\n') = true := by
      simp only [bne_iff_ne, ne_eq]
      intro e
      exact h (by simp [e])
    simp only [List.cons_append, List.takeWhile_cons, ha, if_true]
    rw [ih (fun e => h (List.mem_cons_of_mem _ e))]

/-- C2 (amended): the title heading line is removed from the remaining
document only when it is the very first line of the document and is followed
by a newline; in that case the body/excerpt source text is the stripped
remainder after that leading line.  (A heading line occurring later in the
document is not removed — see the counterexample.) -/
theorem claim2_leading_title_removed (t rest : List Char)
    (h1 : t ≠ []) (h2 : '\n' ∉ t) :
    contentMd ('#' :: ' ' :: (t ++ '\n' :: rest)) = pyStrip rest := by
  have htake := takeWhile_ne_newline_append t rest h2
  have hdrop : (t ++ '\n' :: rest).drop t.length = '\n' :: rest :=
    List.drop_left t ('\n' :: rest)
  have hdrop1 : (t ++ '\n' :: rest).drop (t.length + 1) = rest := by
    have e : t ++ '\n' :: rest = (t ++ ['\n']) ++ rest := by simp
    have el : t.length + 1 = (t ++ ['\n']).length := by simp
    rw [e, el, List.drop_left]
  unfold contentMd
  simp only [removeLeadingTitle]
  rw [if_pos ⟨trivial, trivial⟩]
  rw [htake]
  rw [if_pos ⟨List.length_pos.mpr h1, by rw [hdrop]; rfl⟩]
  rw [hdrop1]

/-- Witness for C2 (amended) at `t = "Hello"`, `rest = "body\n"`. -/
theorem claim2_leading_title_removed_witness :
    "Hello".data ≠ [] ∧ '\n' ∉ "Hello".data ∧
    contentMd ('#' :: ' ' :: ("Hello".data ++ '\n' :: "body\n".data)) =
      pyStrip "body\n".data :=
  ⟨by decide, by decide,
    claim2_leading_title_removed "Hello".data "body\n".data (by decide) (by decide)⟩

/-- C3 (counterexample): in the document
`"# T\nCategories: a\nCategories: b\nhello\n"` the Categories metadata line is
`"Categories: a"` (the first regex match) and there is no Tags metadata line,
yet the line `"Categories: b"` — present in the remaining document and equal
to neither metadata line nor an `"## Excerpt"` marker — is dropped: the body
is just `"hello\n"` and the excerpt is empty.  The scan drops by the prefix
`"Categories: "`, not by equality with the metadata line. -/
theorem claim3_counterexample :
    reSearchAfterLit catLit "# T\nCategories: a\nCategories: b\nhello\n".data =
      some "a".data ∧
    reSearchAfterLit tagLit "# T\nCategories: a\nCategories: b\nhello\n".data =
      none ∧
    "Categories: b".data ∈
      pySplitChar '\n' (contentMd "# T\nCategories: a\nCategories: b\nhello\n".data) ∧
    containsSub excerptLit "Categories: b".data = false ∧
    "Categories: b".data ≠ "Categories: a".data ∧
    (bodyExcerptOf "# T\nCategories: a\nCategories: b\nhello\n".data).1 =
      "hello\n".data ∧
    (bodyExcerptOf "# T\nCategories: a\nCategories: b\nhello\n".data).2 = [] := by
  refine ⟨by decide, by decide, by decide, by decide, by decide, by decide, by decide⟩

/-- A line the scan of lines 55-59 drops by prefix: it starts with
`"Categories: "` or `"Tags: "`. -/
def isMetaLine (l : List Char) : Bool :=
  catLit.isPrefixOf l || tagLit.isPrefixOf l

/-- A line that switches the scan to excerpt accumulation: it does not start
with a metadata prefix (those branches are tested first) but contains the
literal `"## Excerpt"`. -/
def isMarkerLine (l : List Char) : Bool :=
  !isMetaLine l && containsSub excerptLit l

/-- A line the scan keeps (in the body or the excerpt): neither
metadata-prefixed nor containing the excerpt marker. -/
def keepLine (l : List Char) : Bool :=
  !isMetaLine l && !containsSub excerptLit l

/-- After the excerpt flag is set, the scan adds nothing to the body and
accumulates into the excerpt exactly the kept lines. -/
lemma scanBody_true (ls : List (List Char)) :
    scanBody ls true = ([], joinNl (ls.filter keepLine)) := by
  induction ls with
  | nil => rfl
  | cons l rest ih =>
    cases hc : catLit.isPrefixOf l with
    | true =>
      simp [scanBody, hc, ih, List.filter_cons, keepLine, isMetaLine]
    | false =>
      cases ht : tagLit.isPrefixOf l with
      | true =>
        simp [scanBody, hc, ht, ih, List.filter_cons, keepLine, isMetaLine]
      | false =>
        cases he : containsSub excerptLit l with
        | true =>
          simp [scanBody, hc, ht, he, ih, List.filter_cons, keepLine,
            isMetaLine]
        | false =>
          simp [scanBody, hc, ht, he, ih, List.filter_cons, keepLine,
            isMetaLine, joinNl]

/-- C3 (amended): the scan drops exactly the lines starting with the literal
prefixes `"Categories: "` or `"Tags: "` (whether or not they equal the
document's metadata lines) and the lines containing `"## Excerpt"`; every
other line accumulates into the body if it precedes the first marker line and
into the excerpt otherwise. -/
theorem claim3_scan_characterization (ls : List (List Char)) :
    (scanBody ls false).1 =
      joinNl ((ls.takeWhile (fun l => !isMarkerLine l)).filter keepLine) ∧
    (scanBody ls false).2 =
      joinNl (((ls.dropWhile (fun l => !isMarkerLine l)).drop 1).filter keepLine) := by
  induction ls with
  | nil => exact ⟨rfl, rfl⟩
  | cons l rest ih =>
    cases hc : catLit.isPrefixOf l with
    | true =>
      have hm : isMarkerLine l = false := by
        simp [isMarkerLine, isMetaLine, hc]
      have hk : keepLine l = false := by
        simp [keepLine, isMetaLine, hc]
      simp only [scanBody, hc, if_true, List.takeWhile_cons, hm,
        Bool.not_false, if_true, List.filter_cons, hk, Bool.false_eq_true,
        reduceIte, List.dropWhile_cons, ih.1, ih.2, and_self]
    | false =>
      cases ht : tagLit.isPrefixOf l with
      | true =>
        have hm : isMarkerLine l = false := by
          simp [isMarkerLine, isMetaLine, hc, ht]
        have hk : keepLine l = false := by
          simp [keepLine, isMetaLine, hc, ht]
        simp only [scanBody, hc, ht, Bool.false_eq_true, reduceIte, if_true,
          List.takeWhile_cons, hm, Bool.not_false, List.filter_cons, hk,
          List.dropWhile_cons, ih.1, ih.2, and_self]
      | false =>
        cases he : containsSub excerptLit l with
        | true =>
          have hm : isMarkerLine l = true := by
            simp [isMarkerLine, isMetaLine, hc, ht, he]
          simp only [scanBody, hc, ht, he, Bool.false_eq_true, reduceIte,
            if_true, List.takeWhile_cons, hm, Bool.not_true,
            List.dropWhile_cons, scanBody_true, List.filter_nil, joinNl,
            List.map_nil, List.flatten_nil, List.drop_succ_cons,
            List.drop_zero, and_self]
        | false =>
          have hm : isMarkerLine l = false := by
            simp [isMarkerLine, isMetaLine, hc, ht, he]
          have hk : keepLine l = true := by
            simp [keepLine, isMetaLine, hc, ht, he]
          simp only [scanBody, hc, ht, he, Bool.false_eq_true, reduceIte,
            List.takeWhile_cons, hm, Bool.not_false, if_true,
            List.filter_cons, hk, List.dropWhile_cons, ih.1, ih.2, joinNl,
            List.map_cons, List.flatten_cons, and_self]

/-- C7: rendering the body consisting of the fenced code block
```` ```\ncode\n``` ```` yields HTML containing a code element whose literal
text `code` is preserved exactly. -/
theorem claim7_fenced_code_preserved :
    renderMarkdown "```\ncode\n```".data =
      "<pre><code>code\n</code></pre>".data ∧
    containsSub "<code>code\n</code>".data
      (renderMarkdown "```\ncode\n```".data) = true := by
  constructor
  · decide
  · decide

/-- C4: every identifier in a resolved list is the identifier of some term
present in the taxonomy map, and a name whose escaped form is absent from the
map is simply omitted: the resolved list of the surrounding names is
unchanged (no error, no fabricated identifier — resolution is a total
function). -/
theorem claim4_unmatched_names_omitted :
    (∀ (m : TaxonomyMap) (names : List (List Char)) (i : Nat),
      i ∈ resolveIds m names → ∃ k, List.lookup k m = some i) ∧
    (∀ (m : TaxonomyMap) (pre post : List (List Char)) (n : List Char),
      List.lookup (escAmp n) m = none →
      resolveIds m (pre ++ n :: post) =
        resolveIds m pre ++ resolveIds m post) := by
  constructor
  · intro m names i hi
    simp only [resolveIds, List.mem_map, List.mem_filter] at hi
    obtain ⟨c, ⟨_, hsome⟩, hval⟩ := hi
    obtain ⟨v, hv⟩ := Option.isSome_iff_exists.mp hsome
    refine ⟨c, ?_⟩
    rw [hv] at hval ⊢
    simp only [Option.getD_some] at hval
    rw [hval]
  · intro m pre post n hn
    simp only [resolveIds, List.map_append, List.map_cons, List.filter_append,
      List.filter_cons, hn, Option.isSome_none, Bool.false_eq_true, reduceIte,
      List.map_append]

/-- Witness for C4: identifier 1 in a resolved list comes from the term
`"news"`, and the unmatched name `"rust"` is omitted without error. -/
theorem claim4_witness :
    (∃ k, List.lookup k [("news".data, 1)] = some 1) ∧
    resolveIds [("news".data, 1)] ("news".data :: "rust".data :: []) =
      resolveIds [("news".data, 1)] ["news".data] ++
        resolveIds [("news".data, 1)] [] :=
  ⟨claim4_unmatched_names_omitted.1 [("news".data, 1)] ["news".data] 1
      (by decide),
   claim4_unmatched_names_omitted.2 [("news".data, 1)] ["news".data] []
      "rust".data (by decide)⟩

/-- C5: if the authentication request fails, the run aborts with that error
having attempted only the token request — no taxonomy fetch and no post
creation; and any taxonomy fetch or post creation in a trace implies the
authentication response was a success. -/
theorem claim5_auth_failure_aborts_run (env : HttpEnv) (text : List Char) :
    (∀ e, env.authResp = .error e →
      (postToWordpress env text).1 = [Req.authToken] ∧
      Req.fetchCategories ∉ (postToWordpress env text).1 ∧
      Req.fetchTags ∉ (postToWordpress env text).1 ∧
      Req.createPost ∉ (postToWordpress env text).1 ∧
      (postToWordpress env text).2 = .error e) ∧
    ((Req.fetchCategories ∈ (postToWordpress env text).1 ∨
      Req.fetchTags ∈ (postToWordpress env text).1 ∨
      Req.createPost ∈ (postToWordpress env text).1) →
      ∃ tok, env.authResp = .ok tok) := by
  obtain ⟨authResp, categoriesResp, tagsResp, postResp⟩ := env
  cases authResp with
  | error e0 =>
    constructor
    · intro e he
      injection he with h
      subst h
      refine ⟨rfl, ?_, ?_, ?_, rfl⟩ <;> simp [postToWordpress]
    · intro hmem
      simp [postToWordpress] at hmem
  | ok tok =>
    constructor
    · intro e he
      exact absurd he (by simp)
    · intro _
      exact ⟨tok, rfl⟩

/-- A concrete environment whose authentication request returns HTTP 401. -/
def env401 : HttpEnv :=
  { authResp := .error 401
    categoriesResp := .ok []
    tagsResp := .ok []
    postResp := .ok [] }

/-- Witness for C5 at the 401 environment. -/
theorem claim5_witness :
    (postToWordpress env401 []).1 = [Req.authToken] ∧
    Req.fetchCategories ∉ (postToWordpress env401 []).1 ∧
    Req.fetchTags ∉ (postToWordpress env401 []).1 ∧
    Req.createPost ∉ (postToWordpress env401 []).1 ∧
    (postToWordpress env401 []).2 = .error 401 :=
  (claim5_auth_failure_aborts_run env401 []).1 401 rfl

/-- C6: the normalisation of lines 89-95 replaces each literal `'&'` by
`"&amp;"` (it is a homomorphism for concatenation, maps `'&'` to the entity
and leaves every other character unchanged); in particular
`"tips & tricks"` is escaped to `"tips &amp; tricks"`, and a document whose
category is `tips & tricks` is matched against the remote term stored under
`"tips &amp; tricks"`. -/
theorem claim6_ampersand_escaped_before_lookup :
    (∀ u v : List Char, escAmp (u ++ v) = escAmp u ++ escAmp v) ∧
    escAmp ['&'] = "&amp;".data ∧
    (∀ c : Char, c ≠ '&' → escAmp [c] = [c]) ∧
    escAmp "tips & tricks".data = "tips &amp; tricks".data ∧
    (buildPayload "# T\nCategories: tips & tricks\n".data
      [("tips &amp; tricks".data, 7)] []).categories = [7] := by
  refine ⟨?_, by decide, ?_, by decide, by decide⟩
  · intro u v
    induction u with
    | nil => rfl
    | cons c u ih =>
      simp [escAmp, pyReplaceChar, List.append_assoc] at ih ⊢
      rw [ih]
  · intro c hc
    simp [escAmp, pyReplaceChar, hc]

/-- Witness for C6 at the character `'x'`. -/
theorem claim6_witness :
    escAmp ['x'] = ['x'] :=
  claim6_ampersand_escaped_before_lookup.2.2.1 'x' (by decide)

/-- C8: whenever the Categories regex of line 42 captures `"a, B , c"`, the
parsed category names are `["a", "b", "c"]` — split at commas, trimmed,
lowercased, order preserved — and they are empty when the regex does not
match; likewise for the Tags regex of line 43. -/
theorem claim8_meta_names_trim_lower_order (text : List Char) :
    (reSearchAfterLit catLit text = some "a, B , c".data →
      parseCategories text = ["a".data, "b".data, "c".data]) ∧
    (reSearchAfterLit catLit text = none → parseCategories text = []) ∧
    (reSearchAfterLit tagLit text = some "a, B , c".data →
      parseTags text = ["a".data, "b".data, "c".data]) ∧
    (reSearchAfterLit tagLit text = none → parseTags text = []) := by
  refine ⟨fun h => ?_, fun h => ?_, fun h => ?_, fun h => ?_⟩
  · simp only [parseCategories, metaNames]
    rw [h]
    decide
  · simp only [parseCategories, metaNames]
    rw [h]
  · simp only [parseTags, metaNames]
    rw [h]
    decide
  · simp only [parseTags, metaNames]
    rw [h]

/-- Witness for C8 on concrete documents with and without metadata lines. -/
theorem claim8_witness :
    parseCategories "Categories: a, B , c\n".data =
      ["a".data, "b".data, "c".data] ∧
    parseCategories "no metadata".data = [] ∧
    parseTags "Tags: a, B , c\n".data = ["a".data, "b".data, "c".data] ∧
    parseTags "no metadata".data = [] :=
  ⟨(claim8_meta_names_trim_lower_order "Categories: a, B , c\n".data).1
      (by decide),
   (claim8_meta_names_trim_lower_order "no metadata".data).2.1 (by decide),
   (claim8_meta_names_trim_lower_order "Tags: a, B , c\n".data).2.2.1
      (by decide),
   (claim8_meta_names_trim_lower_order "no metadata".data).2.2.2 (by decide)⟩

/-- Escaping grows a string by four characters per ampersand. -/
lemma escAmp_length (n : List Char) :
    (escAmp n).length = n.length + 4 * n.count '&' := by
  have hrep : "&amp;".data = ['&', 'a', 'm', 'p', ';'] := rfl
  unfold escAmp
  rw [hrep]
  induction n with
  | nil => rfl
  | cons c n ih =>
    by_cases hc : c = '&'
    · subst hc
      simp only [pyReplaceChar, if_true, List.length_append, List.length_cons,
        List.length_nil, List.count_cons_self]
      omega
    · simp only [pyReplaceChar, hc, reduceIte, List.length_append,
        List.length_cons, List.length_nil,
        List.count_cons_of_ne (Ne.symm hc)]
      omega

/-- C9: the escaping is unconditional — an already-escaped `"&amp;"` becomes
`"&amp;amp;"` — and a name containing a literal `'&'` is never equal to its
escaped form, so a document name written in entity-escaped form never matches
a remote term stored under that singly-escaped name: the concrete lookup of
`"tips &amp; tricks"` against the map `{tips &amp; tricks ↦ 5}` is omitted. -/
theorem claim9_double_escaping_never_matches :
    escAmp "&amp;".data = "&amp;amp;".data ∧
    (∀ n : List Char, '&' ∈ n → escAmp n ≠ n) ∧
    resolveIds [("tips &amp; tricks".data, 5)] ["tips &amp; tricks".data] =
      [] := by
  refine ⟨by decide, ?_, by decide⟩
  intro n hn heq
  have hlen := escAmp_length n
  rw [heq] at hlen
  have hpos : 0 < n.count '&' := List.count_pos_iff.mpr hn
  omega

/-- Witness for C9 at the name `"&amp;"` itself. -/
theorem claim9_witness :
    escAmp "&amp;".data ≠ "&amp;".data :=
  claim9_double_escaping_never_matches.2.1 "&amp;".data (by decide)

/-- The guarded comprehension of lines 98-99 is a `filterMap` of the lookup. -/
lemma filter_isSome_map_getD {α β : Type} [Inhabited β] (f : α → Option β)
    (l : List α) :
    (l.filter (fun c => (f c).isSome)).map (fun c => (f c).getD default) =
      l.filterMap f := by
  induction l with
  | nil => rfl
  | cons c l ih =>
    cases hf : f c <;>
      simp [List.filter_cons, List.filterMap_cons, hf, ih]

/-- C10: resolution is exactly the `filterMap` of the map lookup over the
escaped name list, so identifiers appear in the order of the document's
names, restricted to matched names, and a repeated matched name contributes
its identifier once per occurrence — as on the concrete duplicated tag
`["go", "go"]`. -/
theorem claim10_order_and_multiplicity :
    (∀ (m : TaxonomyMap) (names : List (List Char)),
      resolveIds m names =
        (names.map escAmp).filterMap (fun c => List.lookup c m)) ∧
    resolveIds [("go".data, 2)] ["go".data, "go".data] = [2, 2] := by
  constructor
  · intro m names
    simpa [resolveIds] using
      filter_isSome_map_getD (fun c => List.lookup c m) (names.map escAmp)
  · decide

end Pontalk
